import Mathlib

/-!
Verification development for the EchoPay backend.

The development shallowly embeds the four source files of the repository:

* `src/utlis/commandParser.js` — the regex-based command parser (`parseCommand`,
  the four `PATTERNS`, token alias normalization);
* `src/unnamed/part_000` (`models/Contact.js`) — the contact schema
  (lowercase/trim/unique name, address regex) and `ContactRepository`
  (`create`, `findByName`);
* `src/services/blockchainService.js` — token tables, `getTokenDecimals`,
  `sendTokens`/`sendEth`, `getTokenBalance`, `getBalances`, together with the
  relevant parts of the ethers library surface the service calls
  (`parseUnits`/`parseFixed`, `formatUnits`, `isAddress`);
* `src/app.js` — the inline send-only parser and the `POST /api/execute`
  handler.

Strings are handled as `List Char` internally, with `String` wrappers at the
interfaces.  JavaScript regexes are embedded as deterministic matchers; each
matcher's doc comment states the regex it embeds.  At almost every choice
point the adjacent character classes are disjoint (digits vs. whitespace vs.
letters), so the greedy deterministic reading coincides with the backtracking
regex semantics there; alternations are embedded as ordered trials of the
complete continuations.  The one overlapping choice point is the final
`\s+(.+)` of the send patterns, where a space is both whitespace and matched
by `.`: the unanchored app regex embeds its backtracking explicitly
(`sendRecipCont`), while in the anchored parser pattern the overlap is
unreachable — the input is trimmed first, so it cannot end in whitespace, and
an interior line terminator makes `(.+)$` fail at every split.
-/

/-- Code point of a character, as a natural number. -/
def ccode (c : Char) : Nat := c.toNat

/-- JavaScript whitespace: the `\s` regex class, which is also exactly the set
of characters removed by `String.prototype.trim`. -/
def jsWs (c : Char) : Bool :=
  ccode c = 32 || ccode c = 9 || ccode c = 10 || ccode c = 11 || ccode c = 12 || ccode c = 13 ||
  ccode c = 0xa0 || ccode c = 0x1680 || (0x2000 ≤ ccode c && ccode c ≤ 0x200a) ||
  ccode c = 0x2028 || ccode c = 0x2029 || ccode c = 0x202f || ccode c = 0x205f ||
  ccode c = 0x3000 || ccode c = 0xfeff

/-- The regex class `[0-9]` (also `\d`). -/
def isDigitCh (c : Char) : Bool := 48 ≤ ccode c && ccode c ≤ 57

/-- The regex class `[a-zA-Z]`. -/
def isAsciiAlphaCh (c : Char) : Bool :=
  (65 ≤ ccode c && ccode c ≤ 90) || (97 ≤ ccode c && ccode c ≤ 122)

/-- The regex class `[a-fA-F0-9]` of hexadecimal digits. -/
def isHexCh (c : Char) : Bool :=
  isDigitCh c || (65 ≤ ccode c && ccode c ≤ 70) || (97 ≤ ccode c && ccode c ≤ 102)

/-- The regex class `\w`, i.e. `[a-zA-Z0-9_]`. -/
def isWordCh (c : Char) : Bool := isDigitCh c || isAsciiAlphaCh c || ccode c = 95

/-- JavaScript line terminators, the characters not matched by the regex `.`
(without the `s` flag). -/
def isLineTermCh (c : Char) : Bool :=
  ccode c = 10 || ccode c = 13 || ccode c = 0x2028 || ccode c = 0x2029

/-- ASCII upper-casing of one character.  `String.prototype.toUpperCase` agrees
with this on ASCII input; all characters upper-cased by the source (regex
captures of `[a-zA-Z]+` and case-canonicalization under the regex `i` flag of
ASCII pattern letters) are ASCII. -/
def asciiUpper (c : Char) : Char :=
  if 97 ≤ ccode c && ccode c ≤ 122 then Char.ofNat (ccode c - 32) else c

/-- ASCII lower-casing of one character (`String.prototype.toLowerCase` on
ASCII input). -/
def asciiLower (c : Char) : Char :=
  if 65 ≤ ccode c && ccode c ≤ 90 then Char.ofNat (ccode c + 32) else c

/-- `toUpperCase` over a character list. -/
def jsToUpper (l : List Char) : List Char := l.map asciiUpper

/-- `toLowerCase` over a character list. -/
def jsToLower (l : List Char) : List Char := l.map asciiLower

/-- Remove trailing JavaScript whitespace. -/
def jsTrimRight (l : List Char) : List Char := (l.reverse.dropWhile jsWs).reverse

/-- `String.prototype.trim`: remove leading and trailing JavaScript
whitespace. -/
def jsTrim (l : List Char) : List Char := (jsTrimRight l).dropWhile jsWs

/-- `String.prototype.trim` at the `String` interface. -/
def jsTrimS (s : String) : String := ⟨jsTrim s.data⟩

/-- `toLowerCase` at the `String` interface. -/
def jsToLowerS (s : String) : String := ⟨jsToLower s.data⟩

/-- `toUpperCase` at the `String` interface. -/
def jsToUpperS (s : String) : String := ⟨jsToUpper s.data⟩

/-- Case-insensitive comparison of one pattern character with one input
character, as performed by the regex `i` flag on ASCII pattern letters. -/
def ciChar (p c : Char) : Bool := asciiUpper p == asciiUpper c

/-- Match a literal pattern case-insensitively at the head of the input,
returning the rest of the input on success. -/
def dropCi : List Char → List Char → Option (List Char)
  | [], cs => some cs
  | _ :: _, [] => none
  | p :: ps, c :: cs => if ciChar p c then dropCi ps cs else none

/-- Greedy `C+` for a character class `C`: the (non-empty) maximal run
satisfying `p` and the rest of the input. -/
def span1 (p : Char → Bool) (cs : List Char) : Option (List Char × List Char) :=
  match cs.takeWhile p with
  | [] => none
  | r => some (r, cs.dropWhile p)

/-- Greedy `\s+`. -/
def ws1 (cs : List Char) : Option (List Char) := (span1 jsWs cs).map (·.2)

/-- Greedy `\s*`. -/
def wsStar (cs : List Char) : List Char := cs.dropWhile jsWs

/-- The optional fraction `(?:\.\d+)?` of the send pattern's amount: consumed
only when a dot followed by at least one digit is present. -/
def optFrac (cs : List Char) : List Char × List Char :=
  match cs with
  | '.' :: rest =>
    match span1 isDigitCh rest with
    | some (ds, r) => ('.' :: ds, r)
    | none => ([], cs)
  | _ => ([], cs)

/-- Embedding of `PATTERNS.SEND`,
`/^send\s+(\d+(?:\.\d+)?)\s+([a-zA-Z]+)\s+to\s+(.+)$/i`: on success returns the
three captures (amount, token, recipient). -/
def matchSend (cs : List Char) : Option (List Char × List Char × List Char) :=
  (dropCi "send".data cs).bind fun r1 =>
  (ws1 r1).bind fun r2 =>
  (span1 isDigitCh r2).bind fun dr =>
  (match optFrac dr.2 with
   | (fr, r4) =>
     (ws1 r4).bind fun r5 =>
     (span1 isAsciiAlphaCh r5).bind fun tr =>
     (ws1 tr.2).bind fun r7 =>
     (dropCi "to".data r7).bind fun r8 =>
     (ws1 r8).bind fun r9 =>
     if r9 ≠ [] ∧ r9.all (fun c => !isLineTermCh c) then some (dr.1 ++ fr, tr.1, r9)
     else none)

/-- The keyword alternation `(?:check|show|view)` of `PATTERNS.CHECK_BALANCE`. -/
def balanceKw (cs : List Char) : Option (List Char) :=
  (dropCi "check".data cs).orElse fun _ =>
  (dropCi "show".data cs).orElse fun _ =>
  dropCi "view".data cs

/-- The optional `(?:my)?` prefix: consumed exactly when present (the following
literal starts with a different letter, so the regex cannot succeed by skipping
a present `my`). -/
def optMy (cs : List Char) : List Char :=
  match dropCi "my".data cs with
  | some r => r
  | none => cs

/-- The tail `(?:\s+of\s+([a-zA-Z]+))?$` of the balance pattern. -/
def balanceOfTail (cs : List Char) : Option (Option (List Char)) :=
  match cs with
  | [] => some none
  | _ =>
    (ws1 cs).bind fun r1 =>
    (dropCi "of".data r1).bind fun r2 =>
    (ws1 r2).bind fun r3 =>
    (span1 isAsciiAlphaCh r3).bind fun tr =>
    if tr.2 = [] then some (some tr.1) else none

/-- Embedding of `PATTERNS.CHECK_BALANCE`,
`/^(?:check|show|view)\s+(?:my)?\s*balance(?:\s+of\s+([a-zA-Z]+))?$/i`: on
success returns the optional token capture. -/
def matchBalance (cs : List Char) : Option (Option (List Char)) :=
  (balanceKw cs).bind fun r1 =>
  (ws1 r1).bind fun r2 =>
  (dropCi "balance".data (wsStar (optMy r2))).bind fun r5 =>
  balanceOfTail r5

/-- The address tail `(0x[a-fA-F0-9]{40})$` of the add-contact pattern (the `x`
is case-insensitive under the `i` flag). -/
def addrTail (cs : List Char) : Option (List Char) :=
  match cs with
  | c0 :: c1 :: rest =>
    if c0 = '0' ∧ (c1 = 'x' ∨ c1 = 'X') ∧ rest.length = 40 ∧ rest.all isHexCh then
      some (c0 :: c1 :: rest)
    else none
  | _ => none

/-- The optional connective `(?:with\s+address\s+|as\s+)?` followed by the
address tail; the regex tries the `with` branch, then the `as` branch, then
skipping the group. -/
def addConnective (cs : List Char) : Option (List Char) :=
  ((dropCi "with".data cs).bind fun r1 =>
   (ws1 r1).bind fun r2 =>
   (dropCi "address".data r2).bind fun r3 =>
   (ws1 r3).bind addrTail).orElse fun _ =>
  ((dropCi "as".data cs).bind fun r1 =>
   (ws1 r1).bind addrTail).orElse fun _ =>
  addrTail cs

/-- Embedding of `PATTERNS.ADD_CONTACT`,
`/^add\s+contact\s+([a-zA-Z0-9_]+)\s+(?:with\s+address\s+|as\s+)?(0x[a-fA-F0-9]{40})$/i`:
on success returns the name and address captures. -/
def matchAdd (cs : List Char) : Option (List Char × List Char) :=
  (dropCi "add".data cs).bind fun r1 =>
  (ws1 r1).bind fun r2 =>
  (dropCi "contact".data r2).bind fun r3 =>
  (ws1 r3).bind fun r4 =>
  (span1 isWordCh r4).bind fun nr =>
  (ws1 nr.2).bind fun r6 =>
  (addConnective r6).map fun addr => (nr.1, addr)

/-- The keyword alternation `(?:list|show|view)` of `PATTERNS.LIST_CONTACTS`. -/
def listKw (cs : List Char) : Option (List Char) :=
  (dropCi "list".data cs).orElse fun _ =>
  (dropCi "show".data cs).orElse fun _ =>
  dropCi "view".data cs

/-- Embedding of `PATTERNS.LIST_CONTACTS`,
`/^(?:list|show|view)\s+(?:my)?\s*contacts$/i`. -/
def matchList (cs : List Char) : Option Unit :=
  (listKw cs).bind fun r1 =>
  (ws1 r1).bind fun r2 =>
  (dropCi "contacts".data (wsStar (optMy r2))).bind fun r5 =>
  if r5 = [] then some () else none

/-- The parsed-command variants produced by `parseCommand` in
`src/utlis/commandParser.js` (the `type`/`payload` objects). -/
inductive ParsedCommand where
  | send (amount token recipient : String)
  | checkBalance (token : String)
  | addContact (name address : String)
  | listContacts
  | unknown (originalCommand : String)
deriving DecidableEq, Repr

/-- Token alias normalization as written in the parser's send and balance
branches: `MYTOKEN`, `MY-TOKEN` and `MY_TOKEN` map to `MTK`, everything else is
unchanged. -/
def normToken (t : String) : String :=
  if t = "MYTOKEN" ∨ t = "MY-TOKEN" ∨ t = "MY_TOKEN" then "MTK" else t

/-- Embedding of `parseCommand` from `src/utlis/commandParser.js`.  A falsy
argument (among strings, exactly `""`) returns `null`, embedded as `none`;
otherwise the trimmed input is tried against the four patterns in order and a
`ParsedCommand` is always produced, with `unknown` carrying the trimmed text
when nothing matches. -/
def parseCommand (s : String) : Option ParsedCommand :=
  if s.data = [] then none
  else
    let c := jsTrim s.data
    match matchSend c with
    | some (amt, tok, rcp) =>
      some (.send ⟨amt⟩ (normToken ⟨jsToUpper tok⟩) (jsTrimS ⟨rcp⟩))
    | none =>
      match matchBalance c with
      | some tokOpt =>
        some (.checkBalance (normToken (match tokOpt with
          | some t => ⟨jsToUpper t⟩
          | none => "ALL")))
      | none =>
        match matchAdd c with
        | some (nm, ad) => some (.addContact (jsTrimS ⟨nm⟩) ⟨ad⟩)
        | none =>
          match matchList c with
          | some _ => some .listContacts
          | none => some (.unknown ⟨c⟩)

/-! ## Contact directory (`models/Contact.js`) -/

/-- A stored contact record. -/
structure Contact where
  name : String
  address : String
deriving DecidableEq, Repr

/-- The schema's address validator, `/^0x[a-fA-F0-9]{40}$/`. -/
def mongooseValidAddress (s : String) : Bool :=
  match s.data with
  | '0' :: 'x' :: rest => rest.length = 40 && rest.all isHexCh
  | _ => false

/-- The schema's name normalization: the `lowercase` and `trim` setters applied
to the incoming name before it is stored. -/
def normStored (s : String) : String := ⟨jsTrim (jsToLower s.data)⟩

/-- The normalization `ContactRepository.findByName` applies to its query:
`name.toLowerCase().trim().replace(/[^\w\s]/g, '')` — lowercase, trim, then
strip every character that is neither a word character nor whitespace. -/
def normQuery (s : String) : String :=
  ⟨(jsTrim (jsToLower s.data)).filter (fun c => isWordCh c || jsWs c)⟩

/-- Errors of `ContactRepository.create`: a schema validation failure (name
required, address format) or the duplicate-key error (Mongo code 11000) raised
by the unique index on `name`. -/
inductive CreateErr where
  | nameRequired
  | invalidAddressFormat
  | duplicateName (name : String)
deriving DecidableEq, Repr

/-- Embedding of `ContactRepository.create` over an insertion-ordered list of
records: schema setters normalize the name, schema validation checks the
required name and the address format, and the unique index on `name` rejects a
second record with the same stored name. -/
def createContact (db : List Contact) (name address : String) :
    Except CreateErr (Contact × List Contact) :=
  let stored := normStored name
  if stored = "" then .error .nameRequired
  else if !mongooseValidAddress address then .error .invalidAddressFormat
  else if db.any (fun c => c.name == stored) then .error (.duplicateName stored)
  else
    let c : Contact := ⟨stored, address⟩
    .ok (c, db ++ [c])

/-- Anchored case-insensitive full-string match, embedding the second lookup
strategy `findOne({name: {$regex: new RegExp('^' + n + '$', 'i')}})`; the
spliced `n` contains only word characters and whitespace (everything else was
stripped), so the regex is a case-insensitive literal. -/
def ciEqStr (a b : String) : Bool := jsToLower a.data == jsToLower b.data

/-- Embedding of `ContactRepository.findByName`: normalize the query, try an
exact match on the stored name, then an anchored case-insensitive match.
`findOne` returns the first record in natural (insertion) order. -/
def findByName (db : List Contact) (q : String) : Option Contact :=
  let n := normQuery q
  match db.find? (fun c => c.name == n) with
  | some c => some c
  | none => db.find? (fun c => ciEqStr c.name n)

/-! ## Ethers library surface used by the service -/

/-- Embedding of ethers v5 `parseFixed` (the core of `parseUnits` and
`parseEther`): the value must match `^-?[0-9.]+$`, must not be a bare `.`, may
contain at most one dot; trailing zeros of the fraction are dropped and the
remaining fraction must fit into `decimals` digits; the result is the amount in
the token's smallest unit, as a signed integer. -/
def parseFixed (value : String) (decimals : Nat) : Option Int :=
  let cs := value.data
  let neg : Bool := match cs with | '-' :: _ => true | _ => false
  let body := match cs with | '-' :: t => t | l => l
  if body = [] then none
  else if !body.all (fun c => isDigitCh c || c == '.') then none
  else if body = ['.'] then none
  else
    let comps := body.splitOn '.'
    if 2 < comps.length then none
    else
      let whole := comps.headD []
      let fraction0 := (comps.drop 1).headD []
      let fraction1 := if fraction0 = [] then ['0'] else fraction0
      let fraction2 := (fraction1.reverse.dropWhile (· == '0')).reverse
      if decimals < fraction2.length then none
      else
        let digitsVal : List Char → Nat := fun l => l.foldl (fun n c => n * 10 + (ccode c - 48)) 0
        let v : Int := digitsVal whole * 10 ^ decimals + digitsVal fraction2 * 10 ^ (decimals - fraction2.length)
        some (if neg then -v else v)

/-- Decimal digit string of a natural number (`BigNumber.prototype.toString`
for non-negative values). -/
def natDigits (n : Nat) : List Char := Nat.toDigits 10 n

/-- Embedding of ethers v5 `formatUnits`/`formatFixed` for non-negative values:
whole part, a dot, and the fraction padded to `decimals` digits with trailing
zeros removed but at least one digit kept. -/
def formatUnits (v : Nat) (decimals : Nat) : String :=
  let fracPadded := List.replicate (decimals - (natDigits (v % 10 ^ decimals)).length) '0' ++
    natDigits (v % 10 ^ decimals)
  let kept := (fracPadded.reverse.dropWhile (· == '0')).reverse
  ⟨natDigits (v / 10 ^ decimals) ++ '.' :: (if kept = [] then ['0'] else kept)⟩

/-- Embedding of ethers v5 `isAddress`/`getAddress` acceptance: an optional
`0x` prefix followed by exactly 40 hexadecimal digits; an address mixing upper-
and lower-case hex letters must additionally pass the EIP-55 checksum, which
depends on keccak-256 and is abstracted as the predicate `checksumOk`. -/
def ethersIsAddress (checksumOk : String → Bool) (s : String) : Bool :=
  let body := match s.data with | '0' :: 'x' :: t => t | l => l
  body.length = 40 && body.all isHexCh &&
    (body.all (fun c => !(65 ≤ ccode c && ccode c ≤ 70)) ||
     body.all (fun c => !(97 ≤ ccode c && ccode c ≤ 102)) ||
     checksumOk s)

/-! ## Blockchain service (`services/blockchainService.js`) -/

/-- The shipped `TOKEN_DECIMALS` static table. -/
def TOKEN_DECIMALS : List (String × Nat) :=
  [("MTK", 18), ("USDC", 6), ("ETH", 18), ("DAI", 18), ("USDT", 6)]

/-- The shipped `TOKEN_ADDRESSES` table (`ETH` maps to the special marker
`NATIVE`). -/
def TOKEN_ADDRESSES : List (String × String) :=
  [("MTK", "0x0E4Dd0bA5a6f1bc0ffFE421dbB8E252dFF0C66f6"),
   ("ETH", "NATIVE"),
   ("USDC", "0x1c7D4B196Cb0C7B01d743Fbc6116a902379C7238"),
   ("DAI", "0x68194a729C2450ad26072b3D33ADaCbcef39D574"),
   ("USDT", "0xaA8E23Fb1079EA71e0a56F48a2aA51851D8433D0")]

/-- JavaScript object lookup over an association list. -/
def lookupT {α : Type} (t : List (String × α)) (k : String) : Option α :=
  (t.find? (fun p => p.1 == k)).map (·.2)

/-- JavaScript object assignment `t[k] = v` over an association list. -/
def setEntry {α : Type} (t : List (String × α)) (k : String) (v : α) : List (String × α) :=
  if t.any (fun p => p.1 == k) then t.map (fun p => if p.1 == k then (k, v) else p)
  else t ++ [(k, v)]

/-- A confirmed transaction receipt, as consumed by the service (the fields of
`tx.wait()`'s result that the service reads). -/
structure TxReceipt where
  transactionHash : String
  blockNumber : Nat
deriving DecidableEq, Repr

/-- The environment a `BlockchainService` instance runs against: the signing
wallet, the two token tables (process-wide mutable configuration), and the
outcomes of the chain interactions the service may perform.  Failing chain
calls are `Except.error` carrying the error message. -/
structure ChainEnv where
  walletAddress : String
  checksumOk : String → Bool
  decTable : List (String × Nat)
  addrTable : List (String × String)
  decimalsOracle : String → Option Nat
  getBalance : String → Except String Nat
  erc20BalanceOf : String → String → Except String Nat
  submitNative : Except String TxReceipt
  submitErc20 : String → Except String TxReceipt

/-- Failure of decimal resolution: the `Unsupported token` error thrown by
`getTokenDecimals` when the symbol has no known address. -/
inductive DecErr where
  | unsupported (sym : String)
deriving DecidableEq, Repr

/-- Embedding of `BlockchainService.getTokenDecimals`.  Returns the resolved
decimals (or the `Unsupported token` error), the decimals table after the call
(the cache write on a successful query), and whether the chain was queried.
The cache hit test is JavaScript truthiness on `TOKEN_DECIMALS[tokenSymbol]`,
i.e. an entry that is present and non-zero; on a failed query the code returns
`TOKEN_DECIMALS[tokenSymbol] || 18`. -/
def getTokenDecimals (env : ChainEnv) (sym : String) :
    Except DecErr Nat × List (String × Nat) × Bool :=
  let cached := (lookupT env.decTable sym).getD 0
  if cached ≠ 0 then (.ok cached, env.decTable, false)
  else if sym == "ETH" then (.ok 18, env.decTable, false)
  else
    match lookupT env.addrTable sym with
    | none => (.error (.unsupported sym), env.decTable, false)
    | some ca =>
      match env.decimalsOracle ca with
      | some d => (.ok d, setEntry env.decTable sym d, true)
      | none =>
        let w := (lookupT env.decTable sym).getD 0
        (.ok (if w ≠ 0 then w else 18), env.decTable, true)

/-- Errors thrown by `sendTokens`/`sendEth`.  `sendFailed sym e` is the
re-throw `Failed to send ${sym}: ${message}` of the catch blocks, preserving
the wrapped error; `chainError` is a failure coming from the chain client. -/
inductive TxError where
  | invalidAddress
  | unsupported (sym : String)
  | invalidAmount
  | insufficientBalance (sym : String)
  | chainError (msg : String)
  | sendFailed (sym : String) (inner : TxError)
deriving DecidableEq, Repr

/-- A successful transfer result, as built by `sendTokens`/`sendEth`. -/
structure TxRecord where
  transactionHash : String
  from_ : String
  to_ : String
  amount : String
  token : String
  blockNumber : Nat
  network : String
deriving DecidableEq, Repr

/-- Outcome of a transfer call: the thrown error or returned record, whether
the submission capability (`transfer`/`sendTransaction`) was invoked, and the
decimals table after the call. -/
structure SendOutcome where
  result : Except TxError TxRecord
  submitted : Bool
  decTable : List (String × Nat)

/-- Embedding of `BlockchainService.sendEth`: address validation, then inside
the try block `parseEther`, the native balance read, the strict balance
comparison, submission and confirmation; every failure inside the try block is
re-thrown wrapped as `Failed to send ETH: ...`. -/
def sendEth (env : ChainEnv) (toAddress amount : String) : SendOutcome :=
  if !ethersIsAddress env.checksumOk toAddress then ⟨.error .invalidAddress, false, env.decTable⟩
  else
    match parseFixed amount 18 with
    | none => ⟨.error (.sendFailed "ETH" .invalidAmount), false, env.decTable⟩
    | some amt =>
      match env.getBalance env.walletAddress with
      | .error m => ⟨.error (.sendFailed "ETH" (.chainError m)), false, env.decTable⟩
      | .ok bal =>
        if (bal : Int) < amt then
          ⟨.error (.sendFailed "ETH" (.insufficientBalance "ETH")), false, env.decTable⟩
        else
          match env.submitNative with
          | .error m => ⟨.error (.sendFailed "ETH" (.chainError m)), true, env.decTable⟩
          | .ok rc =>
            ⟨.ok ⟨rc.transactionHash, env.walletAddress, toAddress, amount, "ETH",
              rc.blockNumber, "testnet"⟩, true, env.decTable⟩

/-- Embedding of `BlockchainService.sendTokens`: address validation, dispatch
to `sendEth` for the native token, token address lookup, decimal resolution and
`parseUnits` (both before the try block, so their failures are not wrapped),
then inside the try block the contract balance read, the strict balance
comparison, submission and confirmation, with failures wrapped as
`Failed to send ${sym}: ...`. -/
def sendTokens (env : ChainEnv) (sym toAddress amount : String) : SendOutcome :=
  if !ethersIsAddress env.checksumOk toAddress then ⟨.error .invalidAddress, false, env.decTable⟩
  else if sym == "ETH" then sendEth env toAddress amount
  else
    match lookupT env.addrTable sym with
    | none => ⟨.error (.unsupported sym), false, env.decTable⟩
    | some ca =>
      match getTokenDecimals env sym with
      | (.error e, t, _) => ⟨.error (match e with | .unsupported s => .unsupported s), false, t⟩
      | (.ok d, t, _) =>
        match parseFixed amount d with
        | none => ⟨.error .invalidAmount, false, t⟩
        | some amt =>
          match env.erc20BalanceOf ca env.walletAddress with
          | .error m => ⟨.error (.sendFailed sym (.chainError m)), false, t⟩
          | .ok bal =>
            if (bal : Int) < amt then
              ⟨.error (.sendFailed sym (.insufficientBalance sym)), false, t⟩
            else
              match env.submitErc20 ca with
              | .error m => ⟨.error (.sendFailed sym (.chainError m)), true, t⟩
              | .ok rc =>
                ⟨.ok ⟨rc.transactionHash, env.walletAddress, toAddress, amount, sym,
                  rc.blockNumber, "testnet"⟩, true, t⟩

/-- A balance entry as built by `getTokenBalance`: the success shapes carry
`balanceRaw` and `decimals` and no `error` field; the failure shape carries
balance `"0"` and the error message. -/
structure BalanceInfo where
  token : String
  balance : String
  balanceRaw : Option String
  decimals : Option Nat
  error : Option String
  network : String
deriving DecidableEq, Repr

/-- Embedding of `BlockchainService.getTokenBalance`.  The native path reads
the provider balance; the token path looks up the contract address (throwing
`Unsupported token` into the catch block when absent), reads the contract
balance with a `.catch` that silently replaces a failed read by a zero raw
balance, and resolves decimals via `getTokenDecimals` (whose cache write the
concurrent balance path does not observe).  The outer catch converts any thrown
error into a zero-balance entry annotated with the message. -/
def getTokenBalance (env : ChainEnv) (sym : String) (addr? : Option String) : BalanceInfo :=
  let target := addr?.getD env.walletAddress
  if sym == "ETH" then
    match env.getBalance target with
    | .ok wei => ⟨"ETH", formatUnits wei 18, some ⟨natDigits wei⟩, some 18, none, "testnet"⟩
    | .error m => ⟨"ETH", "0", none, none, some m, "testnet"⟩
  else
    match lookupT env.addrTable sym with
    | none => ⟨sym, "0", none, none, some ("Unsupported token: " ++ sym), "testnet"⟩
    | some ca =>
      let raw := match env.erc20BalanceOf ca target with
        | .ok b => b
        | .error _ => 0
      match (getTokenDecimals env sym).1 with
      | .ok d => ⟨sym, formatUnits raw d, some ⟨natDigits raw⟩, some d, none, "testnet"⟩
      | .error (.unsupported s) =>
        ⟨sym, "0", none, none, some ("Unsupported token: " ++ s), "testnet"⟩

/-- The default symbol set of `getBalances`. -/
def defaultBalanceSymbols : List String := ["ETH", "MTK", "USDC", "DAI", "USDT"]

/-- Embedding of `BlockchainService.getBalances`: one `getTokenBalance` per
requested symbol (the per-promise `.catch` is dead in this model because
`getTokenBalance` never throws), collected in the input order by
`Promise.all`. -/
def getBalances (env : ChainEnv) (syms : List String) (addr? : Option String) : List BalanceInfo :=
  syms.map (fun s => getTokenBalance env s addr?)

/-! ## Express app (`src/app.js`) -/

/-- The result of the inline parser in `app.js`. -/
structure AppParsed where
  amount : String
  token : String
  recipient : String
deriving DecidableEq, Repr

/-- The greedy `(.+)` with nothing after it: the maximal non-empty run of
non-line-terminator characters at the current position. -/
def dotPlus (l : List Char) : Option (List Char) :=
  match l.takeWhile (fun c => !isLineTermCh c) with
  | [] => none
  | r => some r

/-- Continuation of the app regex's final `\s+(.+)` after at least one
whitespace character has been consumed.  `\s` and `.` overlap (a space or a
tab is whitespace and not a line terminator), so `\s+` is not simply greedy
here: the regex prefers to extend `\s+`, but when the rest of the pattern then
fails it backtracks and lets `(.+)` start on the whitespace character —
exactly this alternation, tried in this order. -/
def sendRecipCont : List Char → Option (List Char)
  | [] => none
  | c :: rest =>
    if jsWs c then
      match sendRecipCont rest with
      | some r => some r
      | none => dotPlus (c :: rest)
    else dotPlus (c :: rest)

/-- The app regex tail `\s+(.+)` (no anchor): the first character must be
whitespace and belong to `\s+`; the rest is matched with backtracking by
`sendRecipCont`. -/
def sendRecipTail : List Char → Option (List Char)
  | [] => none
  | c :: rest => if jsWs c then sendRecipCont rest else none

/-- One attempt of the unanchored app regex
`/send\s+(\d+(?:\.\d+)?)\s+([a-zA-Z]+)\s+to\s+(.+)/i` at the current position:
like the anchored send pattern but without the trailing `$`.  The final
`\s+(.+)` is matched with backtracking (see `sendRecipCont`): on
`send 1 eth to␣␣` the recipient capture is a single space. -/
def appSendAt (cs : List Char) : Option (List Char × List Char × List Char) :=
  (dropCi "send".data cs).bind fun r1 =>
  (ws1 r1).bind fun r2 =>
  (span1 isDigitCh r2).bind fun dr =>
  (match optFrac dr.2 with
   | (fr, r4) =>
     (ws1 r4).bind fun r5 =>
     (span1 isAsciiAlphaCh r5).bind fun tr =>
     (ws1 tr.2).bind fun r7 =>
     (dropCi "to".data r7).bind fun r8 =>
     (sendRecipTail r8).map fun rcp => (dr.1 ++ fr, tr.1, rcp))

/-- Leftmost-match search of the unanchored app regex: try every start
position, earliest first. -/
def appScan : List Char → Option (List Char × List Char × List Char)
  | [] => none
  | c :: t =>
    match appSendAt (c :: t) with
    | some r => some r
    | none => appScan t

/-- Embedding of the inline `parseCommand` helper in `app.js`: leftmost
unanchored match of the send regex, token upper-cased and alias-normalized,
recipient trimmed and lower-cased.  Returns `null` (here `none`) for any text
without a send match. -/
def appParseCommand (command : String) : Option AppParsed :=
  match appScan command.data with
  | none => none
  | some (amt, tok, rcp) =>
    some ⟨⟨amt⟩, normToken ⟨jsToUpper tok⟩, ⟨jsToLower (jsTrim rcp)⟩⟩

/-- The responses of the `POST /api/execute` handler, keeping the payloads the
handler builds. -/
inductive ExecResponse where
  | commandRequired
  | invalidFormat (error suggestion : String)
  | contactNotFound (error suggestion : String)
  | success (message : String) (transaction : TxRecord)
  | serverError (e : TxError)

/-- Embedding of the `POST /api/execute` handler in `app.js`: reject a missing
(falsy) command, run the inline send-only parser, answer `Invalid command
format` with a usage suggestion when it returns `null`, resolve the recipient
through `ContactRepository.findByName`, answer a not-found response with a
suggestion when absent, and otherwise run `sendTokens` and report its outcome
(the catch block maps a thrown transfer error to a 500 response carrying the
message). -/
def executeCommand (db : List Contact) (env : ChainEnv) (command : String) : ExecResponse :=
  if command = "" then .commandRequired
  else
    match appParseCommand command with
    | none => .invalidFormat "Invalid command format" "Try something like \"Send 5 USDC to Alice\""
    | some p =>
      match findByName db p.recipient with
      | none =>
        .contactNotFound ("Contact \"" ++ p.recipient ++ "\" not found")
          ("Make sure you\x27ve added " ++ p.recipient ++ " to your contacts first")
      | some ct =>
        match (sendTokens env p.token ct.address p.amount).result with
        | .ok tx =>
          .success ("Successfully sent " ++ p.amount ++ " " ++ p.token ++ " to " ++ p.recipient) tx
        | .error e => .serverError e

/-! ## Concrete data used by witnesses and counterexamples -/

/-- Shape of the send pattern's amount capture `\d+(?:\.\d+)?`: one or more
digits, optionally followed by a dot and one or more digits. -/
def decLit (l : List Char) : Bool :=
  let d := l.takeWhile isDigitCh
  let r := l.dropWhile isDigitCh
  decide (d ≠ []) &&
    (decide (r = []) ||
      (decide (r.head? = some '.') && decide (r.drop 1 ≠ []) && (r.drop 1).all isDigitCh))

/-- A valid all-lower-case test address. -/
def addrA : String := "0xaaaaaaaaaaaaaaaaaaaaaaaaaaaaaaaaaaaaaaaa"

/-- A second valid test address. -/
def addrB : String := "0xbbbbbbbbbbbbbbbbbbbbbbbbbbbbbbbbbbbbbbbb"

/-- An environment whose chain calls all succeed: ample balances and a
successful submission. -/
def envSubmitOk : ChainEnv where
  walletAddress := "0xcccccccccccccccccccccccccccccccccccccccc"
  checksumOk := fun _ => false
  decTable := TOKEN_DECIMALS
  addrTable := TOKEN_ADDRESSES
  decimalsOracle := fun _ => none
  getBalance := fun _ => .ok 5000000000000000000
  erc20BalanceOf := fun _ _ => .ok 9000000000000000000
  submitNative := .ok ⟨"0xhash", 17⟩
  submitErc20 := fun _ => .ok ⟨"0xhash", 17⟩

/-- An environment whose signing account holds only one smallest unit of every
token (and one wei). -/
def envLowBalance : ChainEnv where
  walletAddress := "0xcccccccccccccccccccccccccccccccccccccccc"
  checksumOk := fun _ => false
  decTable := TOKEN_DECIMALS
  addrTable := TOKEN_ADDRESSES
  decimalsOracle := fun _ => none
  getBalance := fun _ => .ok 1
  erc20BalanceOf := fun _ _ => .ok 1
  submitNative := .ok ⟨"0xhash", 17⟩
  submitErc20 := fun _ => .ok ⟨"0xhash", 17⟩

/-- An environment in which every contract balance read fails while the native
balance read succeeds. -/
def envReadFail : ChainEnv where
  walletAddress := "0xcccccccccccccccccccccccccccccccccccccccc"
  checksumOk := fun _ => false
  decTable := TOKEN_DECIMALS
  addrTable := TOKEN_ADDRESSES
  decimalsOracle := fun _ => none
  getBalance := fun _ => .ok 7
  erc20BalanceOf := fun _ _ => .error "contract read failed"
  submitNative := .ok ⟨"0xhash", 17⟩
  submitErc20 := fun _ => .ok ⟨"0xhash", 17⟩

/-- A configuration holding a token symbol `ABC` that has a known contract
address but no static decimals entry, with a failing on-chain decimals
query. -/
def envDecFallback : ChainEnv where
  walletAddress := "0xcccccccccccccccccccccccccccccccccccccccc"
  checksumOk := fun _ => false
  decTable := []
  addrTable := [("ABC", "0xdddddddddddddddddddddddddddddddddddddddd")]
  decimalsOracle := fun _ => none
  getBalance := fun _ => .ok 7
  erc20BalanceOf := fun _ _ => .ok 7
  submitNative := .ok ⟨"0xhash", 17⟩
  submitErc20 := fun _ => .ok ⟨"0xhash", 17⟩

/-! ## General lemmas -/

theorem takeWhile_append_eq {α : Type} (p : α → Bool) (a b : List α)
    (ha : ∀ c ∈ a, p c = true) (hb : ∀ c, b.head? = some c → p c = false) :
    (a ++ b).takeWhile p = a := by
  induction a with
  | nil =>
    cases b with
    | nil => simp
    | cons x xs => simp [List.takeWhile_cons, hb x rfl]
  | cons x xs ih =>
    simp only [List.cons_append, List.takeWhile_cons, ha x (List.mem_cons_self x xs)]
    simp [ih (fun c hc => ha c (List.mem_cons_of_mem _ hc))]

theorem dropWhile_append_eq {α : Type} (p : α → Bool) (a b : List α)
    (ha : ∀ c ∈ a, p c = true) (hb : ∀ c, b.head? = some c → p c = false) :
    (a ++ b).dropWhile p = b := by
  induction a with
  | nil =>
    cases b with
    | nil => simp
    | cons x xs => simp [List.dropWhile_cons, hb x rfl]
  | cons x xs ih =>
    simp only [List.cons_append, List.dropWhile_cons, ha x (List.mem_cons_self x xs)]
    simp [ih (fun c hc => ha c (List.mem_cons_of_mem _ hc))]

theorem span1_append_eq (p : Char → Bool) (a b : List Char) (hne : a ≠ [])
    (ha : ∀ c ∈ a, p c = true) (hb : ∀ c, b.head? = some c → p c = false) :
    span1 p (a ++ b) = some (a, b) := by
  unfold span1
  rw [takeWhile_append_eq p a b ha hb, dropWhile_append_eq p a b ha hb]
  cases a with
  | nil => exact absurd rfl hne
  | cons x xs => rfl

theorem ws1_append_eq (a b : List Char) (hne : a ≠ [])
    (ha : ∀ c ∈ a, jsWs c = true) (hb : ∀ c, b.head? = some c → jsWs c = false) :
    ws1 (a ++ b) = some b := by
  unfold ws1
  rw [span1_append_eq jsWs a b hne ha hb]
  rfl

theorem head_dropWhile_not {α : Type} (p : α → Bool) :
    ∀ (l : List α) (c : α), (l.dropWhile p).head? = some c → p c = false := by
  intro l
  induction l with
  | nil => intro c h; simp at h
  | cons x xs ih =>
    intro c h
    by_cases hx : p x
    · rw [List.dropWhile_cons, if_pos hx] at h; exact ih c h
    · rw [List.dropWhile_cons, if_neg hx] at h
      simp at h
      subst h
      exact Bool.eq_false_iff.mpr hx

theorem jsWs_false_of_digit (c : Char) (h : isDigitCh c = true) : jsWs c = false := by
  simp only [isDigitCh, Bool.and_eq_true, decide_eq_true_eq] at h
  simp only [jsWs, Bool.or_eq_false_iff, Bool.and_eq_false_iff, decide_eq_false_iff_not]
  omega

theorem jsWs_false_of_alpha (c : Char) (h : isAsciiAlphaCh c = true) : jsWs c = false := by
  simp only [isAsciiAlphaCh, Bool.or_eq_true, Bool.and_eq_true, decide_eq_true_eq] at h
  simp only [jsWs, Bool.or_eq_false_iff, Bool.and_eq_false_iff, decide_eq_false_iff_not]
  omega

/-! ## C7 — decimal resolution -/

/-- C7 counterexample: for a symbol (`ABC`) that has a known contract address
but no static decimals entry, a failed on-chain decimals query makes
`getTokenDecimals` return `18` (the `|| 18` fallback), not the `Unsupported`
error the claim predicts when no static default exists. -/
theorem decimals_query_failure_falls_back_18 :
    getTokenDecimals envDecFallback "ABC" = (.ok 18, [], true) ∧
    (Except.ok 18 : Except DecErr Nat) ≠ .error (.unsupported "ABC") := by
  refine ⟨rfl, ?_⟩
  simp

/-- C7 (amended): a symbol with a non-zero static-table entry resolves to it
without a chain query; a supported symbol absent from the table is resolved
on-chain and the value is memoized (written to the table); if that query fails
the resolution falls back to `18` (the static entry being absent or zero is
exactly what led to the query); `Unsupported` is thrown, before any query, only
when the symbol has no known address; and under the shipped table ETH, MTK and
DAI resolve to 18 and USDC and USDT to 6, statically. -/
theorem resolveDecimals_behaviour :
    (∀ (env : ChainEnv) (sym : String) (v : Nat),
      lookupT env.decTable sym = some v → v ≠ 0 →
      getTokenDecimals env sym = (.ok v, env.decTable, false)) ∧
    (∀ (env : ChainEnv) (sym ca : String) (d : Nat),
      (lookupT env.decTable sym).getD 0 = 0 → sym ≠ "ETH" →
      lookupT env.addrTable sym = some ca → env.decimalsOracle ca = some d →
      getTokenDecimals env sym = (.ok d, setEntry env.decTable sym d, true)) ∧
    (∀ (env : ChainEnv) (sym ca : String),
      (lookupT env.decTable sym).getD 0 = 0 → sym ≠ "ETH" →
      lookupT env.addrTable sym = some ca → env.decimalsOracle ca = none →
      getTokenDecimals env sym = (.ok 18, env.decTable, true)) ∧
    (∀ (env : ChainEnv) (sym : String),
      (lookupT env.decTable sym).getD 0 = 0 → sym ≠ "ETH" →
      lookupT env.addrTable sym = none →
      getTokenDecimals env sym = (.error (.unsupported sym), env.decTable, false)) ∧
    (∀ env : ChainEnv, env.decTable = TOKEN_DECIMALS →
      getTokenDecimals env "ETH" = (.ok 18, env.decTable, false) ∧
      getTokenDecimals env "MTK" = (.ok 18, env.decTable, false) ∧
      getTokenDecimals env "DAI" = (.ok 18, env.decTable, false) ∧
      getTokenDecimals env "USDC" = (.ok 6, env.decTable, false) ∧
      getTokenDecimals env "USDT" = (.ok 6, env.decTable, false)) := by
  refine ⟨?_, ?_, ?_, ?_, ?_⟩
  · intro env sym v h hv
    simp [getTokenDecimals, h, hv]
  · intro env sym ca d h0 hsym hca hd
    simp [getTokenDecimals, h0, hsym, hca, hd]
  · intro env sym ca h0 hsym hca hd
    simp [getTokenDecimals, h0, hsym, hca, hd]
  · intro env sym h0 hsym hca
    simp [getTokenDecimals, h0, hsym, hca]
  · intro env hT
    refine ⟨?_, ?_, ?_, ?_, ?_⟩ <;> simp [getTokenDecimals, hT, lookupT, TOKEN_DECIMALS]

/-- Witness for `resolveDecimals_behaviour`: under the shipped tables, `MTK`
resolves statically to 18 without a chain query. -/
theorem resolveDecimals_behaviour_witness :
    getTokenDecimals envSubmitOk "MTK" = (.ok 18, envSubmitOk.decTable, false) :=
  resolveDecimals_behaviour.1 envSubmitOk "MTK" 18 rfl (by decide)

/-! ## C1 — insufficient-balance short circuit -/

/-- C1: on both the contract path and the native path, when the signing
account's balance in the token's smallest unit (the amount converted at the
token's resolved decimal count) is strictly below the requested amount, the
transfer fails with the insufficient-balance error (surfaced through the
`Failed to send ${sym}` wrap of the catch block) and the submission capability
is never invoked. -/
theorem insufficientBalance_short_circuit :
    (∀ (env : ChainEnv) (sym dst amount ca : String) (d : Nat) (amt : Int) (bal : Nat),
      ethersIsAddress env.checksumOk dst = true → sym ≠ "ETH" →
      lookupT env.addrTable sym = some ca →
      (getTokenDecimals env sym).1 = .ok d →
      parseFixed amount d = some amt →
      env.erc20BalanceOf ca env.walletAddress = .ok bal →
      (bal : Int) < amt →
      (sendTokens env sym dst amount).result =
          .error (.sendFailed sym (.insufficientBalance sym)) ∧
      (sendTokens env sym dst amount).submitted = false) ∧
    (∀ (env : ChainEnv) (dst amount : String) (amt : Int) (bal : Nat),
      ethersIsAddress env.checksumOk dst = true →
      parseFixed amount 18 = some amt →
      env.getBalance env.walletAddress = .ok bal →
      (bal : Int) < amt →
      (sendTokens env "ETH" dst amount).result =
          .error (.sendFailed "ETH" (.insufficientBalance "ETH")) ∧
      (sendTokens env "ETH" dst amount).submitted = false) := by
  constructor
  · intro env sym dst amount ca d amt bal haddr hsym hca hdec hparse hbal hlt
    rcases hG : getTokenDecimals env sym with ⟨r, t, q⟩
    rw [hG] at hdec
    simp only at hdec
    subst hdec
    simp [sendTokens, haddr, hsym, hca, hG, hparse, hbal, hlt]
  · intro env dst amount amt bal haddr hparse hbal hlt
    simp [sendTokens, sendEth, haddr, hparse, hbal, hlt]

/-- Witness for `insufficientBalance_short_circuit`: sending 2 MTK from an
account holding one smallest unit fails with the insufficient-balance error
without submitting. -/
theorem insufficientBalance_short_circuit_witness :
    (sendTokens envLowBalance "MTK" addrA "2").result =
        .error (.sendFailed "MTK" (.insufficientBalance "MTK")) ∧
    (sendTokens envLowBalance "MTK" addrA "2").submitted = false :=
  insufficientBalance_short_circuit.1 envLowBalance "MTK" addrA "2"
    "0x0E4Dd0bA5a6f1bc0ffFE421dbB8E252dFF0C66f6" 18 2000000000000000000 1
    (by decide) (by decide) rfl rfl rfl rfl (by decide)

/-! ## C5 — transfer validation -/

/-- C5 counterexample: `"0"` is not a positive decimal, yet with a valid
destination and ample balance `sendTokens` does not fail with an
invalid-amount error — it proceeds to submission and succeeds (ethers
`parseUnits` accepts zero, and `balance < 0` is false). -/
theorem transfer_zero_amount_submits :
    (sendTokens envSubmitOk "MTK" addrA "0").result =
        .ok ⟨"0xhash", "0xcccccccccccccccccccccccccccccccccccccccc", addrA, "0", "MTK",
          17, "testnet"⟩ ∧
    (sendTokens envSubmitOk "MTK" addrA "0").submitted = true := by
  exact ⟨rfl, rfl⟩

/-- C5 (amended): a destination failing the ethers address check makes the
transfer fail with `Invalid Ethereum address` before anything else; an amount
that `parseUnits` cannot parse at the token's resolved decimal count (a
non-decimal string, several dots, or a fraction finer than the decimals — but
not zero or negative amounts, which parse fine) fails before any submission,
unwrapped on the contract path and wrapped in the `Failed to send ETH` context
on the native path. -/
theorem transfer_validation_errors :
    (∀ (env : ChainEnv) (sym dst amount : String),
      ethersIsAddress env.checksumOk dst = false →
      (sendTokens env sym dst amount).result = .error .invalidAddress ∧
      (sendTokens env sym dst amount).submitted = false) ∧
    (∀ (env : ChainEnv) (sym dst amount ca : String) (d : Nat),
      ethersIsAddress env.checksumOk dst = true → sym ≠ "ETH" →
      lookupT env.addrTable sym = some ca →
      (getTokenDecimals env sym).1 = .ok d →
      parseFixed amount d = none →
      (sendTokens env sym dst amount).result = .error .invalidAmount ∧
      (sendTokens env sym dst amount).submitted = false) ∧
    (∀ (env : ChainEnv) (dst amount : String),
      ethersIsAddress env.checksumOk dst = true →
      parseFixed amount 18 = none →
      (sendTokens env "ETH" dst amount).result = .error (.sendFailed "ETH" .invalidAmount) ∧
      (sendTokens env "ETH" dst amount).submitted = false) := by
  refine ⟨?_, ?_, ?_⟩
  · intro env sym dst amount haddr
    simp [sendTokens, haddr]
  · intro env sym dst amount ca d haddr hsym hca hdec hparse
    rcases hG : getTokenDecimals env sym with ⟨r, t, q⟩
    rw [hG] at hdec
    simp only at hdec
    subst hdec
    simp [sendTokens, haddr, hsym, hca, hG, hparse]
  · intro env dst amount haddr hparse
    simp [sendTokens, sendEth, haddr, hparse]

/-- Witness for `transfer_validation_errors`: a malformed destination is
rejected as an invalid address without submission. -/
theorem transfer_validation_errors_witness :
    (sendTokens envSubmitOk "MTK" "nope" "1").result = .error .invalidAddress ∧
    (sendTokens envSubmitOk "MTK" "nope" "1").submitted = false :=
  (transfer_validation_errors.1 envSubmitOk "MTK" "nope" "1" (by decide))

/-! ## C8 — balance-query resilience -/

/-- C8 counterexample: when the contract balance read for `MTK` fails, the
entry returned by `getTokenBalance` has a zero balance but **no** error
annotation — the `.catch(() => 0)` silently replaces the failed read, so the
entry looks like a successful zero balance. -/
theorem erc20_read_failure_unannotated :
    getTokenBalance envReadFail "MTK" none =
        ⟨"MTK", "0.0", some "0", some 18, none, "testnet"⟩ ∧
    (getTokenBalance envReadFail "MTK" none).error = none := ⟨rfl, rfl⟩

/-- C8 (amended): balance queries never throw outward.  A failed native
balance read yields a zero balance annotated with the error, and an
unsupported symbol yields a zero balance annotated with the `Unsupported
token` message; a failed contract balance read, however, yields a zero
balance with no annotation.  In a multi-token request every entry is computed
independently from its own symbol, so one token's failure never affects the
other entries. -/
theorem balance_query_resilience :
    (∀ (env : ChainEnv) (addr? : Option String) (m : String),
      env.getBalance (addr?.getD env.walletAddress) = .error m →
      getTokenBalance env "ETH" addr? = ⟨"ETH", "0", none, none, some m, "testnet"⟩) ∧
    (∀ (env : ChainEnv) (sym ca m : String) (addr? : Option String) (d : Nat),
      sym ≠ "ETH" → lookupT env.addrTable sym = some ca →
      env.erc20BalanceOf ca (addr?.getD env.walletAddress) = .error m →
      (getTokenDecimals env sym).1 = .ok d →
      getTokenBalance env sym addr? =
          ⟨sym, formatUnits 0 d, some "0", some d, none, "testnet"⟩) ∧
    (∀ (env : ChainEnv) (sym : String) (addr? : Option String),
      sym ≠ "ETH" → lookupT env.addrTable sym = none →
      getTokenBalance env sym addr? =
          ⟨sym, "0", none, none, some ("Unsupported token: " ++ sym), "testnet"⟩) ∧
    (∀ (env : ChainEnv) (syms : List String) (addr? : Option String) (i : Nat),
      (getBalances env syms addr?)[i]? =
          (syms[i]?).map (fun s => getTokenBalance env s addr?)) := by
  refine ⟨?_, ?_, ?_, ?_⟩
  · intro env addr? m h
    simp [getTokenBalance, h]
  · intro env sym ca m addr? d hsym hca hread hdec
    rcases hG : getTokenDecimals env sym with ⟨r, t, q⟩
    rw [hG] at hdec
    simp only at hdec
    subst hdec
    simp [getTokenBalance, hsym, hca, hread, hG, natDigits]
    rfl
  · intro env sym addr? hsym hca
    simp [getTokenBalance, hsym, hca]
  · intro env syms addr? i
    simp [getBalances, List.getElem?_map]

/-- Witness for `balance_query_resilience`: an unsupported symbol degrades to
an annotated zero-balance entry. -/
theorem balance_query_resilience_witness :
    getTokenBalance envSubmitOk "FOO" none =
        ⟨"FOO", "0", none, none, some ("Unsupported token: " ++ "FOO"), "testnet"⟩ :=
  balance_query_resilience.2.2.1 envSubmitOk "FOO" none (by decide) rfl

/-! ## C10 — shape of multi-token balance results -/

/-- C10 counterexample: in a two-token request where the `MTK` contract read
fails, the list keeps both entries in order, but the failed `MTK` entry
carries no error message (its `error` field is absent), contrary to the
claim's "zero-balance entry carrying an error message". -/
theorem getBalances_failed_entry_lacks_error :
    getBalances envReadFail ["ETH", "MTK"] none =
        [⟨"ETH", "0.000000000000000007", some "7", some 18, none, "testnet"⟩,
         ⟨"MTK", "0.0", some "0", some 18, none, "testnet"⟩] ∧
    ((getBalances envReadFail ["ETH", "MTK"] none)[1]?).map (·.error) = some none :=
  ⟨rfl, rfl⟩

/-- C10 (amended): `getBalances` returns exactly one entry per requested
symbol, in the input order, each entry computed independently from its own
symbol and tagged with it; an individual token's failure therefore only
affects that token's own entry (which, for a failed contract read, is an
unannotated zero — see the counterexample) and never shortens or reorders the
list. -/
theorem getBalances_shape :
    ∀ (env : ChainEnv) (syms : List String) (addr? : Option String),
      (getBalances env syms addr?).length = syms.length ∧
      (∀ i : Nat, (getBalances env syms addr?)[i]? =
          (syms[i]?).map (fun s => getTokenBalance env s addr?)) ∧
      (∀ s : String, (getTokenBalance env s addr?).token = s) := by
  intro env syms addr?
  refine ⟨by simp [getBalances], ?_, ?_⟩
  · intro i
    simp [getBalances, List.getElem?_map]
  · intro s
    by_cases h : s = "ETH"
    · subst h
      unfold getTokenBalance
      simp only [beq_self_eq_true, if_true]
      cases env.getBalance (addr?.getD env.walletAddress) <;> rfl
    · unfold getTokenBalance
      simp only [beq_iff_eq, h, if_false]
      cases lookupT env.addrTable s with
      | none => rfl
      | some ca =>
        cases hd : (getTokenDecimals env s).1 with
        | ok d => simp [hd]
        | error e => cases e with | unsupported s2 => simp [hd]

/-! ## C9 — uniqueness of normalized contact names -/

/-- C9: after a successful insert, a second insert (with a valid address)
whose name normalizes to the same stored key fails with the duplicate-name
error, and the directory still holds exactly one record under that key — the
first contact, unmodified. -/
theorem duplicate_insert_rejected :
    ∀ (db db1 : List Contact) (n1 a1 n2 a2 : String) (c1 : Contact),
      createContact db n1 a1 = .ok (c1, db1) →
      normStored n2 = normStored n1 →
      mongooseValidAddress a2 = true →
      createContact db1 n2 a2 = .error (.duplicateName (normStored n1)) ∧
      db1.filter (fun c => c.name == normStored n1) = [c1] := by
  intro db db1 n1 a1 n2 a2 c1 h1 hn ha2
  by_cases hemp : normStored n1 = ""
  · simp [createContact, hemp] at h1
  by_cases hval : mongooseValidAddress a1 = true
  case neg => simp [createContact, hemp, hval] at h1
  by_cases hdup : (db.any fun c => c.name == normStored n1) = true
  · simp [createContact, hemp, hval, hdup] at h1
  case neg =>
    simp only [createContact, if_neg hemp, hval, Bool.not_true, Bool.false_eq_true, if_false,
      if_neg hdup, Except.ok.injEq, Prod.mk.injEq] at h1
    obtain ⟨hc1, hdb1⟩ := h1
    subst hc1
    subst hdb1
    constructor
    · have hany : ((db ++ [(⟨normStored n1, a1⟩ : Contact)]).any
          fun c => c.name == normStored n2) = true := by
        simp [hn]
      simp only [createContact]
      rw [if_neg (by rw [hn]; exact hemp), if_neg (by simp [ha2]), if_pos hany, hn]
    · rw [List.filter_append]
      have hdb : db.filter (fun c => c.name == normStored n1) = [] := by
        rw [List.filter_eq_nil_iff]
        intro a ha hcontra
        exact hdup (List.any_eq_true.mpr ⟨a, ha, hcontra⟩)
      rw [hdb, List.nil_append]
      simp

/-- Witness for `duplicate_insert_rejected`: inserting `"Bob "` and then
`"bob"` triggers the duplicate error, leaving the single original record. -/
theorem duplicate_insert_rejected_witness :
    createContact [(⟨"bob", addrA⟩ : Contact)] "bob" addrB =
        .error (.duplicateName (normStored "Bob ")) ∧
    List.filter (fun c => c.name == normStored "Bob ") [(⟨"bob", addrA⟩ : Contact)] =
        [(⟨"bob", addrA⟩ : Contact)] :=
  duplicate_insert_rejected [] [⟨"bob", addrA⟩] "Bob " addrA "bob" addrB ⟨"bob", addrA⟩
    rfl rfl rfl

/-! ## C2 — parser totality and the Unknown fallback -/

/-- C2 counterexample: `parseCommand` is not total — the empty string is falsy
in JavaScript, so the guard `if (!commandString ...) return null` returns
`null` instead of an `Unknown` command. -/
theorem parseCommand_empty_input_returns_null : parseCommand "" = none := rfl

/-- C2 (amended): for every non-empty input string `parseCommand` returns a
`ParsedCommand`, and whenever the trimmed text matches none of the four
patterns the result is the `Unknown` variant carrying the trimmed text; only
the empty (falsy) input — and non-string arguments — yield `null`. -/
theorem parseCommand_total_and_unknown_on_nonempty :
    ∀ s : String, s ≠ "" →
      (parseCommand s).isSome = true ∧
      (matchSend (jsTrim s.data) = none → matchBalance (jsTrim s.data) = none →
       matchAdd (jsTrim s.data) = none → matchList (jsTrim s.data) = none →
       parseCommand s = some (.unknown ⟨jsTrim s.data⟩)) := by
  intro s hs
  have hd : s.data ≠ [] := by
    intro h
    apply hs
    cases s with
    | mk d =>
      simp only at h
      subst h
      rfl
  constructor
  · simp only [parseCommand, if_neg hd]
    cases h1 : matchSend (jsTrim s.data) with
    | some v => simp
    | none =>
      cases h2 : matchBalance (jsTrim s.data) with
      | some v => simp
      | none =>
        cases h3 : matchAdd (jsTrim s.data) with
        | some v => simp
        | none =>
          cases h4 : matchList (jsTrim s.data) with
          | some v => simp
          | none => simp
  · intro h1 h2 h3 h4
    simp [parseCommand, if_neg hd, h1, h2, h3, h4]

/-- Witness for `parseCommand_total_and_unknown_on_nonempty`: the unmatched
input `what is this` parses to the `Unknown` variant carrying the trimmed
text. -/
theorem parseCommand_total_and_unknown_witness :
    (parseCommand " what is this ").isSome = true ∧
    parseCommand " what is this " = some (.unknown "what is this") :=
  ⟨(parseCommand_total_and_unknown_on_nonempty " what is this " (by decide)).1,
   (parseCommand_total_and_unknown_on_nonempty " what is this " (by decide)).2 rfl rfl rfl rfl⟩

/-! ## C6 — directory round-trip -/

theorem ccode_ofNat_lt (n : Nat) (h : n < 0xd800) : ccode (Char.ofNat n) = n := by
  show (Char.ofNat n).toNat = n
  unfold Char.ofNat
  split
  · rfl
  · next hn =>
    exfalso
    exact hn (Or.inl h)

theorem asciiLower_eq_self (d : Char) (h : ¬(65 ≤ ccode d ∧ ccode d ≤ 90)) :
    asciiLower d = d := by
  unfold asciiLower
  rw [if_neg (by simp only [Bool.and_eq_true, decide_eq_true_eq]; omega)]

theorem asciiLower_idem (c : Char) : asciiLower (asciiLower c) = asciiLower c := by
  by_cases h : 65 ≤ ccode c ∧ ccode c ≤ 90
  · have h1 : asciiLower c = Char.ofNat (ccode c + 32) := by
      unfold asciiLower
      rw [if_pos (by simp [h.1, h.2])]
    have h2 : ccode (asciiLower c) = ccode c + 32 := by
      rw [h1, ccode_ofNat_lt _ (by omega)]
    exact asciiLower_eq_self _ (by rw [h2]; omega)
  · rw [asciiLower_eq_self c h, asciiLower_eq_self c h]

theorem mem_jsToLower_fixed (l : List Char) (c : Char) (h : c ∈ jsToLower l) :
    asciiLower c = c := by
  obtain ⟨a, _, rfl⟩ := List.mem_map.mp h
  exact asciiLower_idem a

theorem jsToLower_eq_self (l : List Char) (h : ∀ c ∈ l, asciiLower c = c) :
    jsToLower l = l := by
  induction l with
  | nil => rfl
  | cons x xs ih =>
    simp only [jsToLower, List.map_cons, h x (List.mem_cons_self x xs)]
    exact congrArg _ (ih (fun c hc => h c (List.mem_cons_of_mem _ hc)))

theorem dropWhile_eq_self_of_head {α : Type} (p : α → Bool) (l : List α)
    (h : ∀ c, l.head? = some c → p c = false) : l.dropWhile p = l := by
  cases l with
  | nil => rfl
  | cons x xs => rw [List.dropWhile_cons, if_neg (by simp [h x rfl])]

theorem trimRight_eq_self_of_last (l : List Char)
    (h : ∀ c, l.getLast? = some c → jsWs c = false) : jsTrimRight l = l := by
  unfold jsTrimRight
  rw [dropWhile_eq_self_of_head jsWs l.reverse (by
    intro c hc
    rw [List.head?_reverse] at hc
    exact h c hc)]
  exact List.reverse_reverse l

theorem jsTrimRight_sublist (l : List Char) : List.Sublist (jsTrimRight l) l := by
  have h := List.dropWhile_sublist (l := l.reverse) (p := jsWs)
  simpa [jsTrimRight] using h.reverse

theorem jsTrim_sublist (l : List Char) : List.Sublist (jsTrim l) l :=
  (List.dropWhile_sublist _).trans (jsTrimRight_sublist l)

theorem jsTrim_head_not (l : List Char) (c : Char) (h : (jsTrim l).head? = some c) :
    jsWs c = false :=
  head_dropWhile_not jsWs (jsTrimRight l) c h

theorem jsTrim_last_not (l : List Char) (c : Char) (h : (jsTrim l).getLast? = some c) :
    jsWs c = false := by
  have hne : jsTrim l ≠ [] := by
    intro he
    rw [he] at h
    simp at h
  have hsplit : (jsTrimRight l).takeWhile jsWs ++ jsTrim l = jsTrimRight l :=
    List.takeWhile_append_dropWhile jsWs (jsTrimRight l)
  have hlast : (jsTrimRight l).getLast? = some c := by
    rw [← hsplit, List.getLast?_append_of_ne_nil _ hne]
    exact h
  have : ((l.reverse.dropWhile jsWs)).head? = some c := by
    rw [← List.head?_reverse] at hlast
    simpa [jsTrimRight] using hlast
  exact head_dropWhile_not jsWs l.reverse c this

theorem jsTrim_idem (l : List Char) : jsTrim (jsTrim l) = jsTrim l := by
  show (jsTrimRight (jsTrim l)).dropWhile jsWs = jsTrim l
  rw [trimRight_eq_self_of_last _ (jsTrim_last_not l)]
  exact dropWhile_eq_self_of_head jsWs _ (jsTrim_head_not l)

theorem lower_trim_lower (x : List Char) :
    jsToLower (jsTrim (jsToLower x)) = jsTrim (jsToLower x) :=
  jsToLower_eq_self _ (fun c hc =>
    mem_jsToLower_fixed x c ((jsTrim_sublist (jsToLower x)).subset hc))

/-- C6 counterexample: a contact whose name contains punctuation is inserted
successfully (the schema only lowercases and trims), but `findByName` applied
to the exact stored name strips the punctuation from the query, so neither the
exact nor the case-insensitive lookup finds the record. -/
theorem findByName_misses_punctuated_stored_name :
    createContact [] "bob!" addrA = .ok (⟨"bob!", addrA⟩, [⟨"bob!", addrA⟩]) ∧
    findByName [⟨"bob!", addrA⟩] "bob!" = none := ⟨rfl, rfl⟩

/-- C6 (amended): for every contact successfully inserted into a directory of
normalized records whose stored name consists only of word characters and
whitespace, `findByName` on the exact stored name returns that contact, and so
does `findByName` on any query that lower-cases to the stored name (in
particular any differently-cased variant of it). -/
theorem directory_roundtrip_word_names :
    ∀ (db db1 : List Contact) (name addr v : String) (c : Contact),
      createContact db name addr = .ok (c, db1) →
      c.name.data.all (fun ch => isWordCh ch || jsWs ch) = true →
      jsToLowerS v = c.name →
      findByName db1 c.name = some c ∧ findByName db1 v = some c := by
  intro db db1 name addr v c h1 hword hv
  by_cases hemp : normStored name = ""
  · simp [createContact, hemp] at h1
  by_cases hval : mongooseValidAddress addr = true
  case neg => simp [createContact, hemp, hval] at h1
  by_cases hdup : (db.any fun d => d.name == normStored name) = true
  · simp [createContact, hemp, hval, hdup] at h1
  case neg =>
    simp only [createContact, if_neg hemp, hval, Bool.not_true, Bool.false_eq_true, if_false,
      if_neg hdup, Except.ok.injEq, Prod.mk.injEq] at h1
    obtain ⟨hc1, hdb1⟩ := h1
    have hcname : c.name = normStored name := by rw [← hc1]
    have hlowfix : jsToLower c.name.data = c.name.data := by
      rw [hcname]
      exact lower_trim_lower (name.data)
    have main : ∀ q : String, jsToLower q.data = c.name.data → findByName db1 q = some c := by
      intro q hq
      have hnq : normQuery q = c.name := by
        show (⟨(jsTrim (jsToLower q.data)).filter _⟩ : String) = c.name
        rw [hq]
        have htr : jsTrim c.name.data = c.name.data := by
          rw [hcname]
          exact jsTrim_idem _
        rw [htr, List.filter_eq_self.mpr (by
          intro a ha
          exact (List.all_eq_true.mp hword) a ha)]
      have hfind : db1.find? (fun d => d.name == c.name) = some c := by
        rw [← hdb1, List.find?_append]
        have hnone : db.find? (fun d => d.name == c.name) = none := by
          rw [List.find?_eq_none]
          intro a ha hcontra
          apply hdup
          rw [List.any_eq_true]
          refine ⟨a, ha, ?_⟩
          rwa [← hcname]
        rw [hnone]
        simp [← hc1, hcname]
      simp only [findByName, hnq, hfind]
    constructor
    · exact main c.name hlowfix
    · exact main v (by
        have := congrArg String.data hv
        simpa [jsToLowerS] using this)

/-- Witness for `directory_roundtrip_word_names`: after inserting `"Bob"`
(stored as `"bob"`), lookup by `"bob"` and by the cased variant `"BOB"` both
return the contact. -/
theorem directory_roundtrip_word_names_witness :
    findByName [⟨"bob", addrA⟩] "bob" = some ⟨"bob", addrA⟩ ∧
    findByName [⟨"bob", addrA⟩] "BOB" = some ⟨"bob", addrA⟩ := by
  have h := directory_roundtrip_word_names [] [⟨"bob", addrA⟩] "Bob" addrA "BOB" ⟨"bob", addrA⟩
    rfl (by decide) (by decide)
  exact ⟨h.1, h.2⟩

/-! ## C3 — send-command parsing -/

theorem dropWhile_append_of_ne_nil {α : Type} (p : α → Bool) (x y : List α)
    (h : x.dropWhile p ≠ []) : (x ++ y).dropWhile p = x.dropWhile p ++ y := by
  induction x with
  | nil => exact absurd rfl h
  | cons a t ih =>
    by_cases hp : p a
    · have h' : List.dropWhile p t ≠ [] := by rwa [List.dropWhile_cons, if_pos hp] at h
      rw [List.cons_append, List.dropWhile_cons, if_pos hp, List.dropWhile_cons, if_pos hp]
      exact ih h'
    · rw [List.cons_append, List.dropWhile_cons, if_neg hp, List.dropWhile_cons, if_neg hp,
        List.cons_append]

theorem trimRight_append (a b : List Char) (h : jsTrimRight b ≠ []) :
    jsTrimRight (a ++ b) = a ++ jsTrimRight b := by
  have hb : b.reverse.dropWhile jsWs ≠ [] := by
    intro he
    apply h
    simp [jsTrimRight, he]
  unfold jsTrimRight
  rw [List.reverse_append, dropWhile_append_of_ne_nil jsWs b.reverse a.reverse hb,
    List.reverse_append, List.reverse_reverse]

theorem matchSend_concat (amt tok u wsRun : List Char)
    (hamt : decLit amt = true)
    (htokne : tok ≠ []) (htok : tok.all isAsciiAlphaCh = true)
    (hws : ∀ c ∈ wsRun, jsWs c = true)
    (hune : u ≠ [])
    (huhead : ∀ c, u.head? = some c → jsWs c = false)
    (hterm : u.all (fun c => !isLineTermCh c) = true) :
    matchSend ("send ".data ++ (amt ++ ' ' :: (tok ++ ' ' :: 't' :: 'o' :: ' ' :: (wsRun ++ u)))) =
      some (amt, tok, u) := by
  obtain ⟨th, tt, httok⟩ : ∃ th tt, tok = th :: tt := by
    cases tok with
    | nil => exact absurd rfl htokne
    | cons th tt => exact ⟨th, tt, rfl⟩
  have htokall : ∀ c ∈ tok, isAsciiAlphaCh c = true := List.all_eq_true.mp htok
  have hsplit : amt.takeWhile isDigitCh ++ amt.dropWhile isDigitCh = amt :=
    List.takeWhile_append_dropWhile isDigitCh amt
  simp only [decLit, Bool.and_eq_true, Bool.or_eq_true, decide_eq_true_eq] at hamt
  obtain ⟨hdne, hrest⟩ := hamt
  have hdall : ∀ c ∈ amt.takeWhile isDigitCh, isDigitCh c = true :=
    fun c hc => List.mem_takeWhile_imp hc
  obtain ⟨dh, dt, hdht⟩ : ∃ dh dt, amt.takeWhile isDigitCh = dh :: dt := by
    cases hdx : amt.takeWhile isDigitCh with
    | nil => exact absurd hdx hdne
    | cons dh dt => exact ⟨dh, dt, rfl⟩
  set Y : List Char := ' ' :: (tok ++ ' ' :: 't' :: 'o' :: ' ' :: (wsRun ++ u)) with hY
  have hwsTok : ws1 Y = some (tok ++ ' ' :: 't' :: 'o' :: ' ' :: (wsRun ++ u)) := by
    rw [hY, show (' ' :: (tok ++ ' ' :: 't' :: 'o' :: ' ' :: (wsRun ++ u))) =
      [' '] ++ (tok ++ ' ' :: 't' :: 'o' :: ' ' :: (wsRun ++ u)) from rfl]
    refine ws1_append_eq _ _ (by simp) (by intro c hc; simp at hc; subst hc; rfl) ?_
    intro c hc
    rw [httok] at hc
    simp at hc
    subst hc
    exact jsWs_false_of_alpha th (htokall th (by rw [httok]; exact List.mem_cons_self th tt))
  have hTok : span1 isAsciiAlphaCh (tok ++ ' ' :: 't' :: 'o' :: ' ' :: (wsRun ++ u)) =
      some (tok, ' ' :: 't' :: 'o' :: ' ' :: (wsRun ++ u)) := by
    refine span1_append_eq _ _ _ htokne htokall ?_
    intro c hc
    simp at hc
    subst hc
    rfl
  have hwsTo : ws1 (' ' :: 't' :: 'o' :: ' ' :: (wsRun ++ u)) =
      some ('t' :: 'o' :: ' ' :: (wsRun ++ u)) := by
    rw [show (' ' :: 't' :: 'o' :: ' ' :: (wsRun ++ u)) =
      [' '] ++ ('t' :: 'o' :: ' ' :: (wsRun ++ u)) from rfl]
    exact ws1_append_eq _ _ (by simp) (by intro c hc; simp at hc; subst hc; rfl)
      (by intro c hc; simp at hc; subst hc; rfl)
  have hTo : dropCi "to".data ('t' :: 'o' :: ' ' :: (wsRun ++ u)) =
      some (' ' :: (wsRun ++ u)) := rfl
  have hwsRcp : ws1 (' ' :: (wsRun ++ u)) = some u := by
    rw [show (' ' :: (wsRun ++ u)) = (' ' :: wsRun) ++ u from by rw [List.cons_append]]
    refine ws1_append_eq _ _ (by simp) ?_ huhead
    intro c hc
    rcases List.mem_cons.mp hc with hc | hc
    · subst hc; rfl
    · exact hws c hc
  have hSend : dropCi "send".data ("send ".data ++ (amt ++ Y)) = some (' ' :: (amt ++ Y)) := rfl
  have h2 : ws1 (' ' :: (amt ++ Y)) = some (amt ++ Y) := by
    rw [show (' ' :: (amt ++ Y)) = [' '] ++ (amt ++ Y) from rfl]
    refine ws1_append_eq [' '] _ (by simp) (by intro c hc; simp at hc; subst hc; rfl) ?_
    intro c hc
    have hamtY : amt ++ Y = dh :: (dt ++ (amt.dropWhile isDigitCh ++ Y)) := by
      conv_lhs => rw [← hsplit, hdht]
      simp
    rw [hamtY] at hc
    simp at hc
    subst hc
    exact jsWs_false_of_digit dh (hdall dh (by rw [hdht]; exact List.mem_cons_self dh dt))
  rcases hrest with hre | ⟨⟨hdot, hfne⟩, hfdig⟩
  · -- no fractional part: the amount is exactly the digit run
    have hamtd : amt.takeWhile isDigitCh = amt := by
      conv_rhs => rw [← hsplit]
      rw [hre, List.append_nil]
    have hDig : span1 isDigitCh (amt ++ Y) = some (amt, Y) := by
      refine span1_append_eq _ _ _ (by rw [← hamtd]; exact hdne)
        (fun c hc => hdall c (by rw [hamtd]; exact hc)) ?_
      intro c hc
      rw [hY] at hc
      simp at hc
      subst hc
      rfl
    have hFrac : optFrac Y = ([], Y) := by rw [hY]; exact rfl
    simp only [matchSend, hSend, Option.some_bind, h2, hDig, hFrac, hwsTok, hTok, hwsTo, hTo,
      hwsRcp]
    rw [if_pos ⟨hune, hterm⟩]
    simp
  · -- a fractional part is present
    obtain ⟨fs, hfs⟩ : ∃ fs, amt.dropWhile isDigitCh = '.' :: fs := by
      cases hrx : amt.dropWhile isDigitCh with
      | nil => rw [hrx] at hdot; simp at hdot
      | cons a t =>
        rw [hrx] at hdot
        simp at hdot
        subst hdot
        exact ⟨t, rfl⟩
    have hfne' : fs ≠ [] := by
      rw [hfs] at hfne
      simpa using hfne
    have hfdig' : ∀ c ∈ fs, isDigitCh c = true := by
      rw [hfs] at hfdig
      exact List.all_eq_true.mp (by simpa using hfdig)
    have hamt2 : amt.takeWhile isDigitCh ++ '.' :: fs = amt := by rw [← hfs, hsplit]
    have hDig : span1 isDigitCh (amt ++ Y) = some (amt.takeWhile isDigitCh, '.' :: (fs ++ Y)) := by
      conv_lhs => rw [← hamt2, List.append_assoc, List.cons_append]
      exact span1_append_eq _ _ _ hdne hdall (by intro c hc; simp at hc; subst hc; rfl)
    have hFrac : optFrac ('.' :: (fs ++ Y)) = ('.' :: fs, Y) := by
      have hstep : optFrac ('.' :: (fs ++ Y)) =
          match span1 isDigitCh (fs ++ Y) with
          | some (ds, r) => ('.' :: ds, r)
          | none => ([], '.' :: (fs ++ Y)) := rfl
      rw [hstep, span1_append_eq isDigitCh fs Y hfne' hfdig'
        (by intro c hc; rw [hY] at hc; simp at hc; subst hc; rfl)]
    simp only [matchSend, hSend, Option.some_bind, h2, hDig, hFrac, hwsTok, hTok, hwsTo, hTo,
      hwsRcp]
    rw [if_pos ⟨hune, hterm⟩, hamt2]

/-- C3: every command of the shape `send <amount> <token> to <recipient>` —
amount a decimal numeral, token alphabetic, recipient free of line terminators
and non-blank — parses to a `Send` intent whose amount is the very amount
substring (hence numerically equal), whose token is the upper-cased,
alias-normalized token, and whose recipient is the trimmed recipient text;
and the alias table maps `MYTOKEN`, `MY-TOKEN` and `MY_TOKEN` to `MTK`. -/
theorem send_command_parse_correct :
    ∀ (amt tok rcp : List Char),
      decLit amt = true →
      tok ≠ [] →
      tok.all isAsciiAlphaCh = true →
      rcp.all (fun c => !isLineTermCh c) = true →
      jsTrim rcp ≠ [] →
      parseCommand ⟨"send ".data ++ (amt ++ ' ' :: (tok ++ ' ' :: 't' :: 'o' :: ' ' :: rcp))⟩ =
        some (.send ⟨amt⟩ (normToken ⟨jsToUpper tok⟩) ⟨jsTrim rcp⟩) ∧
      normToken "MYTOKEN" = "MTK" ∧ normToken "MY-TOKEN" = "MTK" ∧
      normToken "MY_TOKEN" = "MTK" := by
  intro amt tok rcp hamt htokne htok hterm hune
  refine ⟨?_, rfl, rfl, rfl⟩
  have htrR : jsTrimRight rcp ≠ [] := by
    intro h
    apply hune
    show (jsTrimRight rcp).dropWhile jsWs = []
    rw [h]
    rfl
  have hX : jsTrimRight rcp = (jsTrimRight rcp).takeWhile jsWs ++ jsTrim rcp :=
    (List.takeWhile_append_dropWhile jsWs (jsTrimRight rcp)).symm
  have htrim : jsTrim ("send ".data ++ (amt ++ ' ' :: (tok ++ ' ' :: 't' :: 'o' :: ' ' :: rcp)))
      = "send ".data ++ (amt ++ ' ' :: (tok ++ ' ' :: 't' :: 'o' :: ' ' :: jsTrimRight rcp)) := by
    have h1 : ("send ".data ++ (amt ++ ' ' :: (tok ++ ' ' :: 't' :: 'o' :: ' ' :: rcp)))
        = ("send ".data ++ amt ++ [' '] ++ tok ++ [' ', 't', 'o', ' ']) ++ rcp := by
      simp
    show (jsTrimRight _).dropWhile jsWs = _
    rw [h1, trimRight_append _ rcp htrR]
    have h2 : (("send ".data ++ amt ++ [' '] ++ tok ++ [' ', 't', 'o', ' ']) ++ jsTrimRight rcp)
        = "send ".data ++ (amt ++ ' ' :: (tok ++ ' ' :: 't' :: 'o' :: ' ' :: jsTrimRight rcp)) := by
      simp
    rw [h2]
    refine dropWhile_eq_self_of_head jsWs _ ?_
    intro c hc
    rw [show ("send ".data ++
      (amt ++ ' ' :: (tok ++ ' ' :: 't' :: 'o' :: ' ' :: jsTrimRight rcp))).head? = some 's'
      from rfl] at hc
    simp at hc
    subst hc
    rfl
  have huterm : (jsTrim rcp).all (fun c => !isLineTermCh c) = true := by
    rw [List.all_eq_true]
    intro c hc
    exact List.all_eq_true.mp hterm c ((jsTrim_sublist rcp).subset hc)
  have hfin : matchSend (jsTrim ("send ".data ++
      (amt ++ ' ' :: (tok ++ ' ' :: 't' :: 'o' :: ' ' :: rcp)))) =
      some (amt, tok, jsTrim rcp) := by
    rw [htrim]
    have hm := matchSend_concat amt tok (jsTrim rcp) ((jsTrimRight rcp).takeWhile jsWs)
      hamt htokne htok (fun c hc => List.mem_takeWhile_imp hc) hune (jsTrim_head_not rcp) huterm
    rw [← hX] at hm
    exact hm
  have hne' : ("send ".data ++ (amt ++ ' ' :: (tok ++ ' ' :: 't' :: 'o' :: ' ' :: rcp))) ≠ [] := by
    intro h
    have hlen := congrArg List.length h
    simp at hlen
  simp only [parseCommand]
  rw [if_neg hne', hfin]
  simp [jsTrimS, jsTrim_idem]

/-- Witness for `send_command_parse_correct`: `send 5.5 mytoken to Alice B `
parses to a `Send` of amount `5.5`, canonical token `MTK`, trimmed recipient
`Alice B`. -/
theorem send_command_parse_correct_witness :
    parseCommand ⟨"send ".data ++ ("5.5".data ++ ' ' :: ("mytoken".data ++
        ' ' :: 't' :: 'o' :: ' ' :: "Alice B ".data))⟩ =
      some (.send "5.5" "MTK" "Alice B") :=
  (send_command_parse_correct "5.5".data "mytoken".data "Alice B ".data
    (by decide) (by decide) (by decide) (by decide) (by decide)).1

/-! ## C4 — dispatch at the command execution entry point -/

/-- C4 counterexample: the `/api/execute` entry point runs only the inline
send-only parser, so the balance command `check my balance` is answered with
the invalid-command response instead of performing a balance query; no
`CheckBalance`, `AddContact` or `ListContacts` dispatch exists there. -/
theorem execute_balance_command_invalid_format :
    executeCommand [] envSubmitOk "check my balance" =
      .invalidFormat "Invalid command format" "Try something like \"Send 5 USDC to Alice\"" := rfl

/-- Backtracking case of the inline app regex: on `send 1 eth to` followed by
two spaces, `\\s+` cedes its last whitespace character to `(.+)`, so the
regex matches with recipient capture `" "`, trimmed and lower-cased to the
empty string; the handler then resolves the empty recipient against the
directory and answers contact-not-found, not invalid-format. -/
theorem appParse_whitespace_recipient_backtracks :
    appParseCommand "send 1 eth to  " = some ⟨"1", "ETH", ""⟩ ∧
    executeCommand [] envSubmitOk "send 1 eth to  " =
      .contactNotFound ("Contact \"" ++ "" ++ "\" not found")
        ("Make sure you\x27ve added " ++ "" ++ " to your contacts first") := ⟨rfl, rfl⟩

/-- C4 (amended): the command execution entry point dispatches only Send
intents.  An empty command is rejected as required; a command with no
(unanchored) send match is mapped to the invalid-command response carrying the
usage suggestion; a parsed send goes through `findByName` contact resolution —
missing contacts produce the add-the-contact suggestion — and then through
`sendTokens`, whose success or thrown error becomes the response.  Balance
queries and directory operations are separate HTTP endpoints, not dispatched
from this entry point. -/
theorem execute_dispatch_send_only :
    ∀ (db : List Contact) (env : ChainEnv) (cmd : String) (p : AppParsed) (ct : Contact),
      executeCommand db env "" = .commandRequired ∧
      (cmd ≠ "" → appParseCommand cmd = none →
        executeCommand db env cmd =
          .invalidFormat "Invalid command format"
            "Try something like \"Send 5 USDC to Alice\"") ∧
      (cmd ≠ "" → appParseCommand cmd = some p → findByName db p.recipient = none →
        executeCommand db env cmd =
          .contactNotFound ("Contact \"" ++ p.recipient ++ "\" not found")
            ("Make sure you\x27ve added " ++ p.recipient ++ " to your contacts first")) ∧
      (cmd ≠ "" → appParseCommand cmd = some p → findByName db p.recipient = some ct →
        (∀ tx, (sendTokens env p.token ct.address p.amount).result = .ok tx →
          executeCommand db env cmd =
            .success ("Successfully sent " ++ p.amount ++ " " ++ p.token ++ " to " ++
              p.recipient) tx) ∧
        (∀ e, (sendTokens env p.token ct.address p.amount).result = .error e →
          executeCommand db env cmd = .serverError e)) := by
  intro db env cmd p ct
  refine ⟨rfl, ?_, ?_, ?_⟩
  · intro hcmd hparse
    simp [executeCommand, hcmd, hparse]
  · intro hcmd hparse hfind
    simp [executeCommand, hcmd, hparse, hfind]
  · intro hcmd hparse hfind
    constructor
    · intro tx htx
      simp [executeCommand, hcmd, hparse, hfind, htx]
    · intro e he
      simp [executeCommand, hcmd, hparse, hfind, he]

/-- Witness for `execute_dispatch_send_only`: with contact `alice` present and
a healthy chain, `send 1 ETH to Alice` resolves the contact and reports the
confirmed transfer. -/
theorem execute_dispatch_send_only_witness :
    executeCommand [⟨"alice", addrA⟩] envSubmitOk "send 1 ETH to Alice" =
      .success ("Successfully sent " ++ "1" ++ " " ++ "ETH" ++ " to " ++ "alice")
        ⟨"0xhash", "0xcccccccccccccccccccccccccccccccccccccccc", addrA, "1", "ETH",
          17, "testnet"⟩ :=
  ((execute_dispatch_send_only [⟨"alice", addrA⟩] envSubmitOk "send 1 ETH to Alice"
      ⟨"1", "ETH", "alice"⟩ ⟨"alice", addrA⟩).2.2.2 (by decide) rfl rfl).1 _ rfl
